import Mathlib

/-!
Verification of the task state management and persistence engine of the
todo-using-js repository (src/app.js, React component `TodoApp`).

The component's state updaters are pure list transformations; we embed them
directly.  Host facilities (`localStorage`, `JSON.parse`/`JSON.stringify`,
`Date.now`, `createId`) are not part of the repository's source: storage
reads are modelled by their read-and-parse outcome, serialization at the
level of structured JSON values, and the generated id / current time as
explicit parameters.
-/

namespace Todo

/-- A task record exactly as built in `addTask` (src/app.js lines 75-80):
`{ id: createId(), text: trimmed, completed: false, createdAt: Date.now() }`.
`createdAt` is an epoch-millisecond integer. -/
structure Task where
  id : String
  text : String
  completed : Bool
  createdAt : Int
deriving DecidableEq

/-- The error taxonomy named by the specification (`EmptyInput`, `NotFound`).
Declared only so that claims about reported errors can be stated; the source
code never constructs or returns such a value. -/
inductive TaskError where
  | EmptyInput
  | NotFound
deriving DecidableEq

/-- A JavaScript value as received by the caller of one of the event
handlers: `undefined`, a task object, a number, or an error value. -/
inductive JSValue where
  | undef
  | task (t : Task)
  | num (n : Nat)
  | err (e : TaskError)
deriving DecidableEq

/-- The component state that the task-collection operations read and write:
the `tasks` array, the `text` input field and the `editingId` field
(`null` or a task id).  The `filter` state is independent and handled by
`filteredTasks` separately. -/
structure AppState where
  tasks : List Task
  text : String
  editingId : Option String
deriving DecidableEq

/-- Model of `String.prototype.trim`, a host function of the JavaScript runtime,
not code of this repository.  Modelled from the spec ("non-empty after
trim"): removes every leading and trailing whitespace character and keeps
the rest of the string unchanged. -/
def jsTrim (s : String) : String :=
  ⟨((s.data.dropWhile Char.isWhitespace).reverse.dropWhile Char.isWhitespace).reverse⟩

/-- The handler `addTask` (src/app.js lines 61-84), the state transition it performs.
`newId` stands for the `createId()` result and `now` for `Date.now()`.
JavaScript truthiness is modelled faithfully: the guard `if (!trimmed)`
fires exactly when the trimmed text is the empty string, and
`if (editingId)` is taken exactly when `editingId` is non-null and not the
empty string. -/
def addTask (s : AppState) (newId : String) (now : Int) : AppState :=
  let trimmed := jsTrim s.text
  if trimmed = "" then s
  else
    match s.editingId with
    | some eid =>
        if eid = "" then
          { s with
              tasks := { id := newId, text := trimmed, completed := false,
                         createdAt := now } :: s.tasks,
              text := "" }
        else
          { tasks := s.tasks.map fun t =>
              if t.id = eid then { t with text := trimmed } else t,
            text := "", editingId := none }
    | none =>
        { s with
            tasks := { id := newId, text := trimmed, completed := false,
                       createdAt := now } :: s.tasks,
            text := "" }

/-- The value `addTask` returns to its caller: every path of the arrow
function ends in a plain `return;` or falls off the end of the body, so the
caller always receives `undefined`. -/
def addTaskResult : JSValue := JSValue.undef

/-- The updater passed to `setTasks` by `toggleComplete` (src/app.js
lines 97-99): `prev.map(t => t.id === id ? { ...t, completed: !t.completed } : t)`. -/
def toggleComplete (id : String) (prev : List Task) : List Task :=
  prev.map fun t => if t.id = id then { t with completed := !t.completed } else t

/-- The arrow body of `toggleComplete` has no return statement, so the caller
receives `undefined`. -/
def toggleCompleteResult : JSValue := JSValue.undef

/-- The updater passed to `setTasks` by `removeTask` (src/app.js
lines 101-103): `prev.filter(t => t.id !== id)`. -/
def removeTask (id : String) (prev : List Task) : List Task :=
  prev.filter fun t => t.id ≠ id

/-- The arrow body of `removeTask` has no return statement, so the caller
receives `undefined`. -/
def removeTaskResult : JSValue := JSValue.undef

/-- The updater passed to `setTasks` by `clearCompleted` (src/app.js
lines 105-107): `prev.filter(t => !t.completed)`. -/
def clearCompleted (prev : List Task) : List Task :=
  prev.filter fun t => !t.completed

/-- The arrow body of `clearCompleted` has no return statement, so the caller
receives `undefined`. -/
def clearCompletedResult : JSValue := JSValue.undef

/-- The view `filteredTasks` (src/app.js lines 109-113): the filter state is the
string `"all"`, `"active"` or `"completed"`, and the predicate returns
`!t.completed` for `"active"`, `t.completed` for `"completed"` and `true`
otherwise. -/
def filteredTasks (filter : String) (tasks : List Task) : List Task :=
  tasks.filter fun t =>
    if filter = "active" then !t.completed
    else if filter = "completed" then t.completed
    else true

/-- Structured JSON values, the data handled by `JSON.stringify` and
`JSON.parse`.  These are host functions of the JavaScript runtime, not code
of this repository; serialization is modelled at the level of the
structured values they exchange, the textual grammar being mutually
inverse on them.  Numbers are restricted to integers, which is exact on
the claims' domain: epoch-millisecond timestamps are far below 2^53, the
bound up to which JavaScript numbers represent integers exactly. -/
inductive JSON where
  | null
  | bool (b : Bool)
  | num (n : Int)
  | str (s : String)
  | arr (elems : List JSON)
  | obj (fields : List (String × JSON))

/-- Serialization of one task object: `JSON.stringify` emits the four own
properties of the record built in `addTask`, in insertion order. -/
def encodeTask (t : Task) : JSON :=
  .obj [("id", .str t.id), ("text", .str t.text),
        ("completed", .bool t.completed), ("createdAt", .num t.createdAt)]

/-- The snapshot written by the persistence effect (src/app.js line 47):
`JSON.stringify(tasks)`, an array of task objects. -/
def stringifyTasks (ts : List Task) : JSON :=
  .arr (ts.map encodeTask)

/-- Property access on a parsed JSON object (`t.id`, `t.text`, ...). -/
def lookupField (fields : List (String × JSON)) (k : String) : Option JSON :=
  (fields.find? fun p => p.1 = k).map (·.2)

/-- Reading one stored record back as a Task, field by field, mirroring how
the component consumes loaded objects (`t.id`, `t.text`, `t.completed`,
`t.createdAt`); `some` exactly when the value is a valid serialized Task
record in the sense of the spec's persisted-state layout. -/
def decodeTask : JSON → Option Task
  | .obj fs =>
    match lookupField fs "id", lookupField fs "text",
          lookupField fs "completed", lookupField fs "createdAt" with
    | some (.str i), some (.str tx), some (.bool c), some (.num n) =>
        some { id := i, text := tx, completed := c, createdAt := n }
    | _, _, _, _ => none
  | _ => none

/-- Reading back a list of stored records; `some` only when every element
is a valid serialized Task record. -/
def decodeTaskList : List JSON → Option (List Task)
  | [] => some []
  | v :: vs =>
    match decodeTask v, decodeTaskList vs with
    | some t, some ts => some (t :: ts)
    | _, _ => none

/-- A JSON value that is a valid serialized task collection (an array of
valid Task records) and the collection it deserializes to. -/
def decodeTasks : JSON → Option (List Task)
  | .arr vs => decodeTaskList vs
  | _ => none

/-- The possible outcomes of reading the storage slot at startup.
`localStorage.getItem` and `JSON.parse` are host facilities, not code of
this repository; modelled from the spec: the slot may be unreadable (the
read throws), absent (`getItem` returns `null`), hold the empty string,
hold text that is not valid JSON (`JSON.parse` throws), or hold valid JSON
text deserializing to a value `v`. -/
inductive ParsedSlot where
  | readFailure
  | absent
  | emptyStr
  | invalidJSON (raw : String)
  | validJSON (v : JSON)

/-- The `useState` initializer (src/app.js lines 17-25): inside
`try/catch`, read the slot and return `raw ? JSON.parse(raw) : []`; the
`catch` branch returns `[]`.  `null` and the empty string are falsy, so
both yield `[]`; a parse failure lands in `catch`; otherwise the parsed
value is returned verbatim, whatever it is.  The function is total: no
outcome throws to the caller. -/
def initTasks : ParsedSlot → JSON
  | .readFailure => .arr []
  | .absent => .arr []
  | .emptyStr => .arr []
  | .invalidJSON _ => .arr []
  | .validJSON v => v

/-- The five `setTasks` updaters that change the collection, with the data
each one closes over (`newTask`'s fields for add, the editing id and
trimmed text for edit, the target id for toggle/remove). -/
inductive Op where
  | addOp (newId : String) (trimmed : String) (now : Int)
  | editOp (eid : String) (trimmed : String)
  | toggleOp (id : String)
  | removeOp (id : String)
  | clearOp

/-- Applying one updater to the previous collection (src/app.js lines
66-68, 82, 98, 102, 106). -/
def applyOp : Op → List Task → List Task
  | .addOp newId trimmed now, prev =>
      { id := newId, text := trimmed, completed := false, createdAt := now } :: prev
  | .editOp eid trimmed, prev =>
      prev.map fun t => if t.id = eid then { t with text := trimmed } else t
  | .toggleOp id, prev => toggleComplete id prev
  | .removeOp id, prev => removeTask id prev
  | .clearOp, prev => clearCompleted prev

/-- One mutation followed by the persistence effect (src/app.js lines
43-51): after `setTasks` commits the new collection, the `useEffect` keyed
on `[tasks]` runs (every updater builds a fresh array, so the dependency
always changes) and calls `localStorage.setItem(KEY, JSON.stringify(tasks))`
inside `try/catch`.  `writeOk` models whether `setItem` succeeded; on
failure the exception is caught and only logged, leaving both the
in-memory collection and the previous slot content untouched. -/
def runOp (op : Op) (writeOk : Bool) (st : List Task × Option JSON) :
    List Task × Option JSON :=
  let ts := applyOp op st.1
  (ts, if writeOk then some (stringifyTasks ts) else st.2)

/-! ### Helper lemmas -/

theorem map_eq_self_of {α : Type} {f : α → α} {l : List α}
    (h : ∀ a ∈ l, f a = a) : l.map f = l := by
  rw [List.map_congr_left h, List.map_id']

theorem toggle_map_decomp (x : Task) (l₁ l₂ : List Task)
    (hx : ∀ t ∈ l₁ ++ l₂, t.id ≠ x.id) :
    toggleComplete x.id (l₁ ++ x :: l₂)
      = l₁ ++ { x with completed := !x.completed } :: l₂ := by
  unfold toggleComplete
  rw [List.map_append, List.map_cons, if_pos rfl]
  rw [map_eq_self_of (fun t ht => if_neg (hx t (List.mem_append_left l₂ ht)))]
  rw [map_eq_self_of (fun t ht => if_neg (hx t (List.mem_append_right l₁ ht)))]

theorem toggle_toggle (id : String) (ts : List Task) :
    toggleComplete id (toggleComplete id ts) = ts := by
  induction ts with
  | nil => rfl
  | cons t ts ih =>
    cases t with
    | mk i tx c cr =>
      by_cases h : i = id
      · simp only [toggleComplete, List.map_cons, if_pos h, Bool.not_not] at *
        exact congrArg _ ih
      · simp only [toggleComplete, List.map_cons, if_neg h] at *
        exact congrArg _ ih

theorem remove_filter_decomp (x : Task) (l₁ l₂ : List Task)
    (hx : ∀ t ∈ l₁ ++ l₂, t.id ≠ x.id) :
    removeTask x.id (l₁ ++ x :: l₂) = l₁ ++ l₂ := by
  unfold removeTask
  rw [List.filter_append, List.filter_cons]
  have hxx : (decide (x.id ≠ x.id)) = false := by simp
  rw [hxx]
  simp only [Bool.false_eq_true, if_false]
  rw [List.filter_eq_self.mpr (fun t ht => decide_eq_true (hx t (List.mem_append_left l₂ ht)))]
  rw [List.filter_eq_self.mpr (fun t ht => decide_eq_true (hx t (List.mem_append_right l₁ ht)))]

theorem remove_absent (id : String) (ts : List Task)
    (h : ∀ t ∈ ts, t.id ≠ id) : removeTask id ts = ts :=
  List.filter_eq_self.mpr (fun t ht => decide_eq_true (h t ht))

theorem toggle_absent (id : String) (ts : List Task)
    (h : ∀ t ∈ ts, t.id ≠ id) : toggleComplete id ts = ts :=
  map_eq_self_of (fun t ht => if_neg (h t ht))

theorem decodeTask_encodeTask (t : Task) : decodeTask (encodeTask t) = some t := by
  cases t
  rfl

theorem decodeTaskList_encode (ts : List Task) :
    decodeTaskList (ts.map encodeTask) = some ts := by
  induction ts with
  | nil => rfl
  | cons t ts ih =>
    rw [List.map_cons]
    show (match decodeTask (encodeTask t), decodeTaskList (ts.map encodeTask) with
      | some t, some ts => some (t :: ts)
      | _, _ => none) = some (t :: ts)
    rw [decodeTask_encodeTask, ih]

/-! ### Concrete sample data for counterexamples and witnesses -/

/-- A sample active task. -/
def tMilk : Task := { id := "a", text := "buy milk", completed := false, createdAt := 0 }

/-- A sample completed task. -/
def tDog : Task := { id := "b", text := "walk dog", completed := true, createdAt := 1 }

/-! ### Claim theorems -/

/-- C1 (amended): for input text with non-empty trim and no edit in
progress, `addTask` prepends a new task with the generated id, the trimmed
text, `completed = false` and `createdAt` equal to the creation time,
growing the collection by exactly 1 and leaving all other tasks unchanged;
id uniqueness is preserved provided the generated id is fresh; no value is
returned to the caller (the created Task is not returned). -/
theorem addTask_spec (s : AppState) (newId : String) (now : Int)
    (htrim : jsTrim s.text ≠ "") (hedit : s.editingId = none)
    (hfresh : ∀ t ∈ s.tasks, t.id ≠ newId) :
    (addTask s newId now).tasks
      = { id := newId, text := jsTrim s.text, completed := false, createdAt := now } :: s.tasks
    ∧ (addTask s newId now).tasks.length = s.tasks.length + 1
    ∧ ((s.tasks.map Task.id).Nodup → ((addTask s newId now).tasks.map Task.id).Nodup)
    ∧ addTaskResult = JSValue.undef := by
  have h1 : (addTask s newId now).tasks
      = { id := newId, text := jsTrim s.text, completed := false, createdAt := now } :: s.tasks := by
    simp [addTask, hedit, if_neg htrim]
  refine ⟨h1, by rw [h1]; rfl, ?_, rfl⟩
  intro hnd
  rw [h1, List.map_cons, List.nodup_cons]
  refine ⟨?_, hnd⟩
  intro hmem
  obtain ⟨t, ht, hid⟩ := List.mem_map.mp hmem
  exact hfresh t ht hid

/-- C1 witness: instantiation of `addTask_spec` at a concrete state. -/
theorem addTask_spec_witness :
    jsTrim " buy milk " ≠ ""
    ∧ ((addTask { tasks := [tDog], text := " buy milk ", editingId := none } "a" 2).tasks
        = { id := "a", text := jsTrim " buy milk ", completed := false, createdAt := 2 } :: [tDog]
      ∧ (addTask { tasks := [tDog], text := " buy milk ", editingId := none } "a" 2).tasks.length
        = [tDog].length + 1
      ∧ (([tDog].map Task.id).Nodup
          → (((addTask { tasks := [tDog], text := " buy milk ", editingId := none } "a" 2).tasks).map Task.id).Nodup)
      ∧ addTaskResult = JSValue.undef) :=
  ⟨by decide,
   addTask_spec { tasks := [tDog], text := " buy milk ", editingId := none } "a" 2
     (by decide) rfl (by decide)⟩

/-- C1 counterexample: adding "buy milk" to the empty collection creates
and prepends the task as claimed, but the created Task is not returned to
the caller — the handler's value is `undefined`. -/
theorem addTask_claim_counterexample :
    (addTask { tasks := [], text := "buy milk", editingId := none } "a" 0).tasks
      = [{ id := "a", text := "buy milk", completed := false, createdAt := 0 }]
    ∧ addTaskResult
      ≠ JSValue.task { id := "a", text := "buy milk", completed := false, createdAt := 0 } := by
  decide

/-- C2 (amended): add/edit called with text that trims to empty, and
edit/toggle/delete called with an id absent from the collection, all leave
the collection unchanged; but no error is reported to the caller — each
handler silently no-ops and returns `undefined`. -/
theorem rejected_mutations_spec (s e : AppState) (newId eNewId : String)
    (now eNow : Int) (id eid : String) (ts : List Task)
    (hblank : jsTrim s.text = "")
    (heid : e.editingId = some eid) (heid0 : eid ≠ "") (hetrim : jsTrim e.text ≠ "")
    (heabs : ∀ t ∈ e.tasks, t.id ≠ eid)
    (habs : ∀ t ∈ ts, t.id ≠ id) :
    addTask s newId now = s
    ∧ (addTask e eNewId eNow).tasks = e.tasks
    ∧ toggleComplete id ts = ts
    ∧ removeTask id ts = ts
    ∧ addTaskResult = JSValue.undef
    ∧ toggleCompleteResult = JSValue.undef
    ∧ removeTaskResult = JSValue.undef := by
  refine ⟨?_, ?_, toggle_absent id ts habs, remove_absent id ts habs, rfl, rfl, rfl⟩
  · simp [addTask, hblank]
  · have hmap : (e.tasks.map fun t =>
        if t.id = eid then { t with text := jsTrim e.text } else t) = e.tasks :=
      map_eq_self_of (fun t ht => if_neg (heabs t ht))
    simp [addTask, heid, heid0, if_neg hetrim, hmap]

/-- C2 witness: instantiation of `rejected_mutations_spec` at concrete
states: blank input for add, and the absent id "z" for edit/toggle/delete. -/
theorem rejected_mutations_spec_witness :
    jsTrim "   " = ""
    ∧ jsTrim " new " ≠ ""
    ∧ (∀ t ∈ [tMilk], t.id ≠ "z")
    ∧ (addTask { tasks := [tMilk], text := "   ", editingId := none } "n1" 3
        = { tasks := [tMilk], text := "   ", editingId := none }
      ∧ (addTask { tasks := [tMilk], text := " new ", editingId := some "z" } "n2" 4).tasks = [tMilk]
      ∧ toggleComplete "z" [tMilk] = [tMilk]
      ∧ removeTask "z" [tMilk] = [tMilk]
      ∧ addTaskResult = JSValue.undef
      ∧ toggleCompleteResult = JSValue.undef
      ∧ removeTaskResult = JSValue.undef) :=
  ⟨by decide, by decide, by decide,
   rejected_mutations_spec
     { tasks := [tMilk], text := "   ", editingId := none }
     { tasks := [tMilk], text := " new ", editingId := some "z" }
     "n1" "n2" 3 4 "z" "z" [tMilk]
     (by decide) rfl (by decide) (by decide) (by decide) (by decide)⟩

/-- C2 counterexample: toggling the absent id "z" leaves the collection
unchanged, but no `NotFound` error is reported to the caller — the handler
returns `undefined`. -/
theorem rejected_mutation_claim_counterexample :
    toggleComplete "z" [tMilk] = [tMilk]
    ∧ toggleCompleteResult ≠ JSValue.err TaskError.NotFound := by
  decide

/-- C3 (amended): `clearCompleted` removes all and only the tasks with
`completed = true`, preserving the order of the rest; calling it again
immediately removes nothing; the number of removed tasks equals the count
of completed tasks, but it is not returned to the caller — the handler
returns `undefined`. -/
theorem clearCompleted_spec (ts : List Task) :
    (∀ t, t ∈ clearCompleted ts ↔ t ∈ ts ∧ t.completed = false)
    ∧ List.Sublist (clearCompleted ts) ts
    ∧ clearCompleted (clearCompleted ts) = clearCompleted ts
    ∧ (clearCompleted ts).length + (ts.filter fun t => t.completed).length = ts.length
    ∧ clearCompletedResult = JSValue.undef := by
  refine ⟨?_, List.filter_sublist ts, ?_, ?_, rfl⟩
  · intro t
    simp [clearCompleted, List.mem_filter]
  · exact List.filter_eq_self.mpr (fun t ht => (List.mem_filter.mp ht).2)
  · rw [Nat.add_comm]
    exact (List.length_eq_length_filter_add (fun t : Task => t.completed)).symm

/-- C3 counterexample: clearing a collection holding one completed task
removes it, but the count 1 is not returned to the caller — the handler
returns `undefined`. -/
theorem clearCompleted_claim_counterexample :
    clearCompleted [tDog] = [] ∧ clearCompletedResult ≠ JSValue.num 1 := by
  decide

/-- C4 (amended): initialization is total (never throws): when the slot is
unreadable, absent, empty, or holds text that is not valid JSON, the store
is seeded with the empty collection; when the slot holds valid JSON, the
store is seeded with the parsed value verbatim — in particular with the
deserialized snapshot when it is a valid serialized task collection, but
also with the raw parsed value when it is not. -/
theorem initTasks_spec :
    initTasks .readFailure = JSON.arr []
    ∧ initTasks .absent = JSON.arr []
    ∧ initTasks .emptyStr = JSON.arr []
    ∧ (∀ raw, initTasks (.invalidJSON raw) = JSON.arr [])
    ∧ (∀ v, initTasks (.validJSON v) = v)
    ∧ (∀ v ts, decodeTasks v = some ts → decodeTasks (initTasks (.validJSON v)) = some ts) :=
  ⟨rfl, rfl, rfl, fun _ => rfl, fun _ => rfl, fun _ _ h => h⟩

/-- C4 witness: instantiation of `initTasks_spec` on the snapshot of a
one-task collection. -/
theorem initTasks_spec_witness :
    decodeTasks (stringifyTasks [tMilk]) = some [tMilk]
    ∧ decodeTasks (initTasks (ParsedSlot.validJSON (stringifyTasks [tMilk]))) = some [tMilk] :=
  ⟨by decide, initTasks_spec.2.2.2.2.2 (stringifyTasks [tMilk]) [tMilk] (by decide)⟩

/-- C4 counterexample: a slot holding the text "5" — valid JSON, but not a
valid serialized task collection — seeds the store with the parsed number
instead of the empty collection the claim requires. -/
theorem initTasks_claim_counterexample :
    initTasks (ParsedSlot.validJSON (JSON.num 5)) ≠ JSON.arr []
    ∧ decodeTasks (JSON.num 5) = none := by
  exact ⟨fun h => JSON.noConfusion h, rfl⟩

/-- C5: every collection-changing updater (add, edit, toggle, remove,
clear) is followed by the persistence effect, which requests storing the
serialized new snapshot; when the write succeeds the slot holds exactly
the new snapshot, and when it fails the in-memory mutation still stands —
the new collection is not rolled back and the operation itself does not
fail. -/
theorem persist_after_mutation_spec (op : Op) (st : List Task × Option JSON) :
    (∀ writeOk : Bool, (runOp op writeOk st).1 = applyOp op st.1)
    ∧ (runOp op true st).2 = some (stringifyTasks (applyOp op st.1))
    ∧ (runOp op false st).2 = st.2 :=
  ⟨fun _ => rfl, rfl, rfl⟩

/-- C6: serializing any collection of Task records and reading it back
reconstructs the collection field by field, in the same order, with
integer timestamps intact. -/
theorem save_load_roundtrip (ts : List Task) :
    decodeTasks (stringifyTasks ts) = some ts :=
  decodeTaskList_encode ts

/-- C7: editing an existing task (unique id, non-empty trimmed input)
replaces only its `text`; `id`, `completed` and `createdAt` are preserved,
its position in the sequence is preserved, and every other task is
unchanged. -/
theorem edit_spec (x : Task) (l₁ l₂ : List Task) (input newId : String) (now : Int)
    (hx : ∀ t ∈ l₁ ++ l₂, t.id ≠ x.id) (hid : x.id ≠ "") (htrim : jsTrim input ≠ "") :
    (addTask { tasks := l₁ ++ x :: l₂, text := input, editingId := some x.id } newId now).tasks
      = l₁ ++ { x with text := jsTrim input } :: l₂
    ∧ ({ x with text := jsTrim input }).id = x.id
    ∧ ({ x with text := jsTrim input }).completed = x.completed
    ∧ ({ x with text := jsTrim input }).createdAt = x.createdAt
    ∧ (l₁ ++ { x with text := jsTrim input } :: l₂).length = (l₁ ++ x :: l₂).length := by
  have hmap : ((l₁ ++ x :: l₂).map fun t =>
      if t.id = x.id then { t with text := jsTrim input } else t)
      = l₁ ++ { x with text := jsTrim input } :: l₂ := by
    rw [List.map_append, List.map_cons, if_pos rfl]
    rw [map_eq_self_of (fun t ht => if_neg (hx t (List.mem_append_left l₂ ht)))]
    rw [map_eq_self_of (fun t ht => if_neg (hx t (List.mem_append_right l₁ ht)))]
  refine ⟨?_, rfl, rfl, rfl, by simp⟩
  simp [addTask, htrim, hid, hmap]

/-- C7 witness: instantiation of `edit_spec`: editing "buy milk" to the
trimmed input " new " in a two-task collection. -/
theorem edit_spec_witness :
    (∀ t ∈ ([] : List Task) ++ [tDog], t.id ≠ tMilk.id)
    ∧ tMilk.id ≠ ""
    ∧ jsTrim " new " ≠ ""
    ∧ ((addTask ⟨[] ++ tMilk :: [tDog], " new ", some tMilk.id⟩ "n" 7).tasks
        = [] ++ { tMilk with text := jsTrim " new " } :: [tDog]
      ∧ ({ tMilk with text := jsTrim " new " }).id = tMilk.id
      ∧ ({ tMilk with text := jsTrim " new " }).completed = tMilk.completed
      ∧ ({ tMilk with text := jsTrim " new " }).createdAt = tMilk.createdAt
      ∧ ([] ++ { tMilk with text := jsTrim " new " } :: [tDog]).length
        = ([] ++ tMilk :: [tDog]).length) :=
  ⟨by decide, by decide, by decide,
   edit_spec tMilk [] [tDog] " new " "n" 7 (by decide) (by decide) (by decide)⟩

/-- C8: toggling an existing task's id flips `completed` on the matching
task and changes nothing else, and toggling the same id twice restores the
collection exactly. -/
theorem toggleComplete_spec (x : Task) (l₁ l₂ : List Task)
    (hx : ∀ t ∈ l₁ ++ l₂, t.id ≠ x.id) :
    toggleComplete x.id (l₁ ++ x :: l₂)
      = l₁ ++ { x with completed := !x.completed } :: l₂
    ∧ (∀ id : String, ∀ ts : List Task, toggleComplete id (toggleComplete id ts) = ts) :=
  ⟨toggle_map_decomp x l₁ l₂ hx, fun id ts => toggle_toggle id ts⟩

/-- C8 witness: instantiation of `toggleComplete_spec` at a two-task
collection. -/
theorem toggleComplete_spec_witness :
    (∀ t ∈ ([] : List Task) ++ [tDog], t.id ≠ tMilk.id)
    ∧ (toggleComplete tMilk.id ([] ++ tMilk :: [tDog])
        = [] ++ { tMilk with completed := !tMilk.completed } :: [tDog]
      ∧ (∀ id : String, ∀ ts : List Task, toggleComplete id (toggleComplete id ts) = ts)) :=
  ⟨by decide, toggleComplete_spec tMilk [] [tDog] (by decide)⟩

/-- C9 (amended): deleting an existing (unique) id removes exactly the
matching task and decreases the size by 1, leaving all other tasks
unchanged in order; deleting the same id again changes nothing, but no
`NotFound` error is reported — the handler silently returns `undefined`. -/
theorem removeTask_spec (x : Task) (l₁ l₂ : List Task)
    (hx : ∀ t ∈ l₁ ++ l₂, t.id ≠ x.id) :
    removeTask x.id (l₁ ++ x :: l₂) = l₁ ++ l₂
    ∧ (removeTask x.id (l₁ ++ x :: l₂)).length + 1 = (l₁ ++ x :: l₂).length
    ∧ removeTask x.id (removeTask x.id (l₁ ++ x :: l₂))
        = removeTask x.id (l₁ ++ x :: l₂)
    ∧ removeTaskResult = JSValue.undef := by
  have h1 := remove_filter_decomp x l₁ l₂ hx
  refine ⟨h1, ?_, ?_, rfl⟩
  · rw [h1]
    simp only [List.length_append, List.length_cons]
    omega
  · rw [h1, remove_absent x.id (l₁ ++ l₂) hx]

/-- C9 witness: instantiation of `removeTask_spec` at a two-task
collection. -/
theorem removeTask_spec_witness :
    (∀ t ∈ ([] : List Task) ++ [tDog], t.id ≠ tMilk.id)
    ∧ (removeTask tMilk.id ([] ++ tMilk :: [tDog]) = [] ++ [tDog]
      ∧ (removeTask tMilk.id ([] ++ tMilk :: [tDog])).length + 1
        = ([] ++ tMilk :: [tDog]).length
      ∧ removeTask tMilk.id (removeTask tMilk.id ([] ++ tMilk :: [tDog]))
        = removeTask tMilk.id ([] ++ tMilk :: [tDog])
      ∧ removeTaskResult = JSValue.undef) :=
  ⟨by decide, removeTask_spec tMilk [] [tDog] (by decide)⟩

/-- C9 counterexample: deleting id "a" twice: the second call changes
nothing, but no `NotFound` error is reported to the caller — the handler
returns `undefined`. -/
theorem removeTask_claim_counterexample :
    removeTask "a" (removeTask "a" [tMilk]) = removeTask "a" [tMilk]
    ∧ removeTaskResult ≠ JSValue.err TaskError.NotFound := by
  decide

/-- C10: the filtered views: "active" yields exactly the tasks with
`completed = false`, "completed" exactly those with `completed = true`,
"all" everything, each preserving the stored order (sublists of the
collection); active and completed partition all: their union is the full
view and their intersection is empty.  `filteredTasks` is a pure function
of the collection, so the query mutates no state. -/
theorem filteredTasks_spec (ts : List Task) :
    filteredTasks "all" ts = ts
    ∧ (∀ t, t ∈ filteredTasks "active" ts ↔ t ∈ ts ∧ t.completed = false)
    ∧ (∀ t, t ∈ filteredTasks "completed" ts ↔ t ∈ ts ∧ t.completed = true)
    ∧ List.Sublist (filteredTasks "active" ts) ts
    ∧ List.Sublist (filteredTasks "completed" ts) ts
    ∧ (∀ t, t ∈ filteredTasks "all" ts
        ↔ t ∈ filteredTasks "active" ts ∨ t ∈ filteredTasks "completed" ts)
    ∧ (∀ t, ¬(t ∈ filteredTasks "active" ts ∧ t ∈ filteredTasks "completed" ts)) := by
  have hall : filteredTasks "all" ts = ts.filter (fun _ => true) := rfl
  have hact : filteredTasks "active" ts = ts.filter (fun t => !t.completed) := rfl
  have hcom : filteredTasks "completed" ts = ts.filter (fun t => t.completed) := rfl
  refine ⟨?_, ?_, ?_, ?_, ?_, ?_, ?_⟩
  · rw [hall, List.filter_true]
  · intro t
    rw [hact]
    simp [List.mem_filter]
  · intro t
    rw [hcom]
    simp [List.mem_filter]
  · rw [hact]
    exact List.filter_sublist ts
  · rw [hcom]
    exact List.filter_sublist ts
  · intro t
    rw [hall, hact, hcom]
    by_cases hc : t.completed = true <;> simp [List.mem_filter, hc]
  · intro t
    rw [hact, hcom]
    intro ⟨h1, h2⟩
    have hb1 := (List.mem_filter.mp h1).2
    have hb2 := (List.mem_filter.mp h2).2
    rw [hb2] at hb1
    simp at hb1

end Todo
